import Mathlib

/-!
Verification development for the BLE RTLS prototype (ingestor, locator, API
broadcaster).  The Python services are shallowly embedded: monetary-free pure
fragments become Lean functions, stateful loops become explicit state passing,
database effects become oracle parameters (which rows would raise a
foreign-key violation, what a reload of the known-ID sets would return), and
raised exceptions become `Except` errors.  Floating-point numbers are embedded
as rationals where the Python code only compares and adds them, and as real
numbers where the log-distance path-loss model takes a real exponential.
-/

/-- Association-list lookup, embedding Python `dict[k]` / `dict.get(k)` for
dictionaries represented as key-value lists in insertion order. -/
def alookup {β : Type _} (k : String) : List (String × β) → Option β
  | [] => none
  | (a, b) :: rest => if a = k then some b else alookup k rest

/-- Is an `Except` value a success?  Embeds "the Python call returned without
raising". -/
def exOk {ε α : Type _} : Except ε α → Bool
  | .ok _ => true
  | .error _ => false

/-! ## Ingestor: timestamp normalization (`ingestor/main.py`, `_TsMixin.coerce_ts_dt`) -/

/-- One year in milliseconds, as written in the source: `365 * 24 * 3600 * 1000`. -/
def yearMs : Int := 365 * 24 * 3600 * 1000

/-- `_TsMixin.coerce_ts_dt` from `ingestor/main.py`, restricted to the epoch
milliseconds it computes (the final conversion to a UTC datetime divides by
1000 and does not change the instant).  `allowFallback` is
`ALLOW_FALLBACK_NOW_TS`, `tsMin` is `TS_MIN_EPOCH_MS`, `now_ms` is
`int(time.time() * 1000)` at the call. -/
def coerce_ts_ms (allowFallback : Bool) (tsMin now_ms : Int) (ts : Option Int) :
    Except String Int :=
  match ts with
  | none =>
    if allowFallback then Except.ok now_ms
    else Except.error "ts missing and fallback disabled"
  | some t =>
    if t < tsMin ∨ now_ms + yearMs < t then Except.ok now_ms else Except.ok t

/-! ## Ingestor: known-ID cache (`KnownIds`) -/

/-- The `KnownIds` dataclass: the two known-identifier sets (as lists of ids)
plus the monotonic instant of the last load. -/
structure KnownIds where
  anchors : List String
  wearables : List String
  last_loaded_s : ℚ
deriving DecidableEq

/-- `KnownIds.ensure_fresh`.  `refreshS` is `IDS_REFRESH_S`, `now` is
`time.monotonic()`, and `loadRes` is the outcome of `KnownIds.load(conn)`:
`.ok (anchors, wearables, loadedAt)` when the two `SELECT`s succeed, `.error`
when they raise.  The source has no exception handler here, and the three
field assignments happen only after `load` has returned, so a failing load
leaves the fields untouched and the exception escapes to the caller. -/
def ensureFresh (refreshS : ℚ) (kid : KnownIds) (now : ℚ)
    (loadRes : Except Unit (List String × List String × ℚ)) :
    Except Unit KnownIds :=
  if refreshS ≤ now - kid.last_loaded_s then
    match loadRes with
    | .error e => .error e
    | .ok (a, w, t) => .ok { anchors := a, wearables := w, last_loaded_s := t }
  else .ok kid

/-! ## Ingestor: message models and batch flushers -/

/-- `ScanMessage` (pydantic model) from `ingestor/main.py`. -/
structure ScanMessage where
  ts : Option Int
  anchor_id : String
  uid : String
  rssi : ℚ
  adv_seq : Option Int
  battery : Option ℚ
  temp_c : Option ℚ
  tx_power_dbm : Option Int
  emergency : Option Bool
deriving DecidableEq

/-- `AnchorStatus` (pydantic model). -/
structure AnchorStatus where
  ts : Option Int
  anchor_id : String
  ip : Option String
  fw : Option String
  uptime_s : Option Int
  wifi_rssi : Option Int
  heap_free : Option Int
  heap_min : Option Int
  chip_temp_c : Option ℚ
  tx_power_dbm : Option Int
  ble_scan_active : Option Bool
deriving DecidableEq

/-- `RtlsEvent` (pydantic model). -/
structure RtlsEvent where
  ts : Option Int
  uid : String
  type : String
  severity : Option Int
  details : Option String
  anchor_id : Option String
deriving DecidableEq

/-- The tuple appended to `valid` in `flush_scans` (one row of the `scans`
bulk insert; `flags` is always `None` in the source). -/
structure ScanRow where
  ts : Int
  anchor_id : String
  uid : String
  rssi : ℚ
  battery : Option ℚ
  temp_c : Option ℚ
  tx_power_dbm : Option Int
  adv_seq : Option Int
  flags : Option Int
  emergency : Option Bool
deriving DecidableEq

/-- The tuple appended to `valid` in `flush_status`. -/
structure StatusRow where
  ts : Int
  anchor_id : String
  ip : Option String
  fw : Option String
  uptime_s : Option Int
  wifi_rssi : Option Int
  heap_free : Option Int
  heap_min : Option Int
  chip_temp_c : Option ℚ
  tx_power_dbm : Option Int
  ble_scan_active : Option Bool
deriving DecidableEq

/-- The tuple appended to `valid` in `flush_events`. -/
structure EventRow where
  ts : Int
  uid : String
  type : String
  severity : Option Int
  details : Option String
deriving DecidableEq

/-- Ingestor configuration: `ALLOW_FALLBACK_NOW_TS`, `TS_MIN_EPOCH_MS`,
`IDS_REFRESH_S`. -/
structure IngestCfg where
  allowFallback : Bool
  tsMinEpochMs : Int
  idsRefreshS : ℚ
deriving DecidableEq

/-- The row built from a scan message in `flush_scans` (`flags` is the literal
`None`, `emergency` is `bool(msg.emergency) if msg.emergency is not None else
None`, i.e. the option unchanged). -/
def scanRowOf (ts : Int) (m : ScanMessage) : ScanRow :=
  { ts := ts, anchor_id := m.anchor_id, uid := m.uid, rssi := m.rssi,
    battery := m.battery, temp_c := m.temp_c, tx_power_dbm := m.tx_power_dbm,
    adv_seq := m.adv_seq, flags := none, emergency := m.emergency }

/-- The row built from a status message in `flush_status`. -/
def statusRowOf (ts : Int) (m : AnchorStatus) : StatusRow :=
  { ts := ts, anchor_id := m.anchor_id, ip := m.ip, fw := m.fw,
    uptime_s := m.uptime_s, wifi_rssi := m.wifi_rssi, heap_free := m.heap_free,
    heap_min := m.heap_min, chip_temp_c := m.chip_temp_c,
    tx_power_dbm := m.tx_power_dbm, ble_scan_active := m.ble_scan_active }

/-- The row built from an event message in `flush_events`. -/
def eventRowOf (ts : Int) (m : RtlsEvent) : EventRow :=
  { ts := ts, uid := m.uid, type := m.type, severity := m.severity,
    details := m.details }

/-- The `valid` / `skipped_unknown` accumulation loop of `flush_scans`:
per message, coerce the timestamp (a raising coercion drops the message
without counting it), then require `anchor_id` among the known anchors AND
`uid` among the known wearables; failing rows are skipped and counted. -/
def buildValidScans (cfg : IngestCfg) (now_ms : Int) (kid : KnownIds) :
    List ScanMessage → List ScanRow × Nat
  | [] => ([], 0)
  | m :: rest =>
    match coerce_ts_ms cfg.allowFallback cfg.tsMinEpochMs now_ms m.ts with
    | .error _ => buildValidScans cfg now_ms kid rest
    | .ok ts =>
      if kid.anchors.contains m.anchor_id && kid.wearables.contains m.uid then
        let vs := buildValidScans cfg now_ms kid rest
        (scanRowOf ts m :: vs.1, vs.2)
      else
        let vs := buildValidScans cfg now_ms kid rest
        (vs.1, vs.2 + 1)

/-- The `valid` / `skipped` loop of `flush_status` (gated by the anchor only). -/
def buildValidStatus (cfg : IngestCfg) (now_ms : Int) (kid : KnownIds) :
    List AnchorStatus → List StatusRow × Nat
  | [] => ([], 0)
  | m :: rest =>
    match coerce_ts_ms cfg.allowFallback cfg.tsMinEpochMs now_ms m.ts with
    | .error _ => buildValidStatus cfg now_ms kid rest
    | .ok ts =>
      if kid.anchors.contains m.anchor_id then
        let vs := buildValidStatus cfg now_ms kid rest
        (statusRowOf ts m :: vs.1, vs.2)
      else
        let vs := buildValidStatus cfg now_ms kid rest
        (vs.1, vs.2 + 1)

/-- The `valid` / `skipped` loop of `flush_events` (gated by the uid only). -/
def buildValidEvents (cfg : IngestCfg) (now_ms : Int) (kid : KnownIds) :
    List RtlsEvent → List EventRow × Nat
  | [] => ([], 0)
  | m :: rest =>
    match coerce_ts_ms cfg.allowFallback cfg.tsMinEpochMs now_ms m.ts with
    | .error _ => buildValidEvents cfg now_ms kid rest
    | .ok ts =>
      if kid.wearables.contains m.uid then
        let vs := buildValidEvents cfg now_ms kid rest
        (eventRowOf ts m :: vs.1, vs.2)
      else
        let vs := buildValidEvents cfg now_ms kid rest
        (vs.1, vs.2 + 1)

/-- `flush_scans` from `ingestor/main.py`.  `fk r = true` means the database
would raise `ForeignKeyViolationError` on inserting row `r` (the oracle for
the store's actual FK state at insert time).  The bulk `executemany` is
atomic: it succeeds iff no row violates an FK; on violation the handler
re-inserts row by row, keeping exactly the rows that individually pass, and
counts them.  The result is the refreshed cache, the rows actually inserted,
and `skipped_unknown`. -/
def flushScans (cfg : IngestCfg) (now_mono : ℚ) (now_ms : Int)
    (loadRes : Except Unit (List String × List String × ℚ))
    (fk : ScanRow → Bool) (kid : KnownIds) (batch : List ScanMessage) :
    Except Unit (KnownIds × List ScanRow × Nat) :=
  if batch.isEmpty then .ok (kid, [], 0)
  else
    match ensureFresh cfg.idsRefreshS kid now_mono loadRes with
    | .error e => .error e
    | .ok kid2 =>
      let vs := buildValidScans cfg now_ms kid2 batch
      if vs.1.isEmpty then .ok (kid2, [], vs.2)
      else if vs.1.any fk then .ok (kid2, vs.1.filter (fun r => !(fk r)), vs.2)
      else .ok (kid2, vs.1, vs.2)

/-- `flush_status` from `ingestor/main.py`.  Unlike `flush_scans`, the bulk
insert is NOT wrapped in a `ForeignKeyViolationError` handler: a violation
escapes and the flush fails. -/
def flushStatus (cfg : IngestCfg) (now_mono : ℚ) (now_ms : Int)
    (loadRes : Except Unit (List String × List String × ℚ))
    (fk : StatusRow → Bool) (kid : KnownIds) (batch : List AnchorStatus) :
    Except Unit (KnownIds × List StatusRow × Nat) :=
  if batch.isEmpty then .ok (kid, [], 0)
  else
    match ensureFresh cfg.idsRefreshS kid now_mono loadRes with
    | .error e => .error e
    | .ok kid2 =>
      let vs := buildValidStatus cfg now_ms kid2 batch
      if vs.1.isEmpty then .ok (kid2, [], vs.2)
      else if vs.1.any fk then .error ()
      else .ok (kid2, vs.1, vs.2)

/-- `flush_events` from `ingestor/main.py`.  Like `flush_status`, there is no
`ForeignKeyViolationError` handler around the bulk insert. -/
def flushEvents (cfg : IngestCfg) (now_mono : ℚ) (now_ms : Int)
    (loadRes : Except Unit (List String × List String × ℚ))
    (fk : EventRow → Bool) (kid : KnownIds) (batch : List RtlsEvent) :
    Except Unit (KnownIds × List EventRow × Nat) :=
  if batch.isEmpty then .ok (kid, [], 0)
  else
    match ensureFresh cfg.idsRefreshS kid now_mono loadRes with
    | .error e => .error e
    | .ok kid2 =>
      let vs := buildValidEvents cfg now_ms kid2 batch
      if vs.1.isEmpty then .ok (kid2, [], vs.2)
      else if vs.1.any fk then .error ()
      else .ok (kid2, vs.1, vs.2)

/-! ## Broadcaster: initial websocket snapshot (`api/main.py`, `ws_data`) -/

/-- A row of the `anchors` table, listed in insertion order. -/
structure AnchorRow where
  id : String
  name : Option String
  x : ℚ
  y : ℚ
  z : ℚ
  created_at : ℚ
deriving DecidableEq

/-- A row of the `wearables` table, listed in insertion order. -/
structure WearableRow where
  uid : String
  person_ref : Option String
  role : Option String
  created_at : ℚ
deriving DecidableEq

/-- A JSON message sent to a `/ws/data` client during the initial snapshot. -/
inductive WsMsg where
  | anchor (id : String) (name : Option String) (x y z : ℚ) (created_at : ℚ)
  | wearable (uid : String) (person_ref : Option String) (role : Option String)
      (created_at : ℚ)
deriving DecidableEq

/-- The `type=anchor` snapshot message for one anchor row. -/
def anchorMsg (r : AnchorRow) : WsMsg :=
  WsMsg.anchor r.id r.name r.x r.y r.z r.created_at

/-- The `type=wearable` snapshot message for one wearable row. -/
def wearableMsg (r : WearableRow) : WsMsg :=
  WsMsg.wearable r.uid r.person_ref r.role r.created_at

/-- Stable insertion step for an ascending sort by a string key. -/
def insertAsc {α : Type _} (key : α → String) (x : α) : List α → List α
  | [] => [x]
  | y :: ys => if key x ≤ key y then x :: y :: ys else y :: insertAsc key x ys

/-- Stable ascending sort by a string key; embeds the `ORDER BY id` /
`ORDER BY uid` of the two snapshot `SELECT`s. -/
def sortByKey {α : Type _} (key : α → String) (l : List α) : List α :=
  l.foldr (insertAsc key) []

/-- The initial snapshot `ws_data` sends on accept: every anchor row of the
`SELECT … FROM anchors ORDER BY id`, then every wearable row of the
`SELECT … FROM wearables ORDER BY uid`. -/
def initialSnapshot (anchorsTbl : List AnchorRow) (wearablesTbl : List WearableRow) :
    List WsMsg :=
  (sortByKey (fun r => r.id) anchorsTbl).map anchorMsg ++
    (sortByKey (fun r => r.uid) wearablesTbl).map wearableMsg

/-! ## Locator: RSSI→distance model and position estimator (`locator/main.py`) -/

/-- `rssi_to_distance` from `locator/main.py`:
`10 ** ((tx_power - rssi) / (10.0 * n))`, over the reals. -/
noncomputable def rssi_to_distance (rssi tx_power n : ℝ) : ℝ :=
  (10 : ℝ) ^ ((tx_power - rssi) / (10 * n))

/-- One row of the `fetch_recent_scans` result: `ts` (seconds on the database
clock), `anchor_id`, `uid`, `rssi`. -/
structure ScanRec where
  ts : ℚ
  anchor_id : String
  uid : String
  rssi : ℚ
deriving DecidableEq

/-- The anchor table as returned by `fetch_anchors`: id → (x, y, z). -/
abbrev AnchorMap := List (String × ℚ × ℚ × ℚ)

/-- The locator's tunables: `WINDOW_SECONDS`, `TX_POWER_DBM_AT_1M`,
`PATH_LOSS_EXPONENT`, `WEIGHT_DIST_CLAMP_M`, `TOP_K`. -/
structure LocParams where
  window_seconds : ℚ
  tx_power : ℝ
  path_loss_n : ℝ
  weight_clamp : ℝ
  top_k : ℕ

/-- A `per_anchor` entry: the best (strongest) RSSI and the latest timestamp
seen for one anchor inside the per-uid window. -/
structure AnchorAgg where
  best_rssi : ℚ
  latest_ts : ℚ
deriving DecidableEq

/-- Updating the `per_anchor` dict with one scan: a fresh key is appended (as
Python dict insertion does), an existing key keeps the stronger RSSI and the
later timestamp. -/
def updateAgg (aid : String) (rssi ts : ℚ) :
    List (String × AnchorAgg) → List (String × AnchorAgg)
  | [] => [(aid, { best_rssi := rssi, latest_ts := ts })]
  | (k, s) :: rest =>
    if k = aid then
      (k, { best_rssi := max s.best_rssi rssi, latest_ts := max s.latest_ts ts }) :: rest
    else (k, s) :: updateAgg aid rssi ts rest

/-- One scan's contribution to the `per_anchor` dict: scans whose `anchor_id`
is not in the anchor table are dropped (`continue`), the rest update the
aggregate. -/
def aggStep (anchors : AnchorMap) (acc : List (String × AnchorAgg))
    (r : ScanRec) : List (String × AnchorAgg) :=
  if (alookup r.anchor_id anchors).isSome then updateAgg r.anchor_id r.rssi r.ts acc
  else acc

/-- The `per_anchor` accumulation loop of `compute_and_store_positions`. -/
def aggregate (anchors : AnchorMap) (recs : List ScanRec) :
    List (String × AnchorAgg) :=
  recs.foldl (aggStep anchors) []

/-- One comparison step of Python `max(items, key=…best_rssi)`: keep the
accumulator unless the next element is strictly stronger. -/
def pickMax (acc y : String × AnchorAgg) : String × AnchorAgg :=
  if acc.2.best_rssi < y.2.best_rssi then y else acc

/-- Python `max(items, key=…best_rssi)`: the first element attaining the
maximal best RSSI (later elements replace only on strictly greater key). -/
def argmaxRssi (x : String × AnchorAgg) (xs : List (String × AnchorAgg)) :
    String × AnchorAgg :=
  xs.foldl pickMax x

/-- Stable insertion step for a descending sort by best RSSI. -/
def insertDescRssi (x : String × AnchorAgg) :
    List (String × AnchorAgg) → List (String × AnchorAgg)
  | [] => [x]
  | y :: ys =>
    if y.2.best_rssi ≤ x.2.best_rssi then x :: y :: ys else y :: insertDescRssi x ys

/-- Python `sorted(per_anchor.items(), key=…best_rssi, reverse=True)`:
a stable descending sort. -/
def sortDescRssi (l : List (String × AnchorAgg)) : List (String × AnchorAgg) :=
  l.foldr insertDescRssi []

/-- Fold giving the maximum of a rational list with seed `x`. -/
def foldMax (x : ℚ) (l : List ℚ) : ℚ := l.foldl max x

/-- Fold giving the minimum of a rational list with seed `x`. -/
def foldMin (x : ℚ) (l : List ℚ) : ℚ := l.foldl min x

/-- The quality-score computation of `compute_and_store_positions`:
`spread` is the RSSI spread over the retained anchors (0 with fewer than 2),
`anchor_factor` is `min(1, (num_anchors-1)/max(1, TOP_K-1))` for more than one
anchor and 0 otherwise, and the score is
`clamp(0.6·anchor_factor + 0.4·(1 - min(1, |spread|/40)), 0, 1)`. -/
def qScore (top_k : ℕ) (per_anchor : List (String × AnchorAgg)) : ℚ :=
  let rssi_vals := per_anchor.map (fun kv => kv.2.best_rssi)
  let spread : ℚ :=
    if 1 < rssi_vals.length then
      match rssi_vals with
      | [] => 0
      | v :: vs => foldMax v vs - foldMin v vs
    else 0
  let anchor_factor : ℚ :=
    if 1 < per_anchor.length then
      min 1 (((per_anchor.length - 1 : ℕ) : ℚ) / ((max 1 (top_k - 1) : ℕ) : ℚ))
    else 0
  max 0 (min 1 (3/5 * anchor_factor + 2/5 * (1 - min 1 (|spread| / 40))))

/-- One step of the weighted-centroid accumulation of
`compute_and_store_positions`: anchor coordinates from the anchor table, the
per-anchor distance clamped from below by `WEIGHT_DIST_CLAMP_M`, and the
inverse-square weight `w = 1/(d*d)` added into `(Σw·ax, Σw·ay, Σw)`. -/
noncomputable def wStep (p : LocParams) (anchors : AnchorMap)
    (dists : List (String × ℝ)) (acc : ℝ × ℝ × ℝ) (kv : String × AnchorAgg) :
    ℝ × ℝ × ℝ :=
  let c := (alookup kv.1 anchors).getD (0, 0, 0)
  let d : ℝ := max ((alookup kv.1 dists).getD 0) p.weight_clamp
  let w : ℝ := 1 / (d * d)
  (acc.1 + w * (c.1 : ℝ), acc.2.1 + w * (c.2.1 : ℝ), acc.2.2 + w)

/-- The weighted sums `(wsumx, wsumy, wtot)` over the top-K anchors. -/
noncomputable def wsum (p : LocParams) (anchors : AnchorMap)
    (dists : List (String × ℝ)) (top : List (String × AnchorAgg)) : ℝ × ℝ × ℝ :=
  top.foldl (wStep p anchors dists) ((0 : ℝ), (0 : ℝ), (0 : ℝ))

/-- A row inserted into `positions` (`ts = now()` and the auto id are managed
by the store and omitted). -/
structure Position where
  uid : String
  x : ℝ
  y : ℝ
  z : ℝ
  method : String
  q_score : ℚ
  zone : Option String
  nearest_anchor_id : String
  dist_m : ℝ
  num_anchors : ℕ
  dists : List (String × ℝ)

/-- The per-uid position construction of `compute_and_store_positions`, given
the non-empty `per_anchor` dictionary `pa0 :: rest`: distances from best
RSSI, nearest anchor by best RSSI, then the three-way method choice
(weighted centroid over the top-K anchors, nearest-anchor fallback on
degenerate weights, single-anchor placement), and the quality score. -/
noncomputable def mkPosition (p : LocParams) (anchors : AnchorMap) (uid : String)
    (pa0 : String × AnchorAgg) (rest : List (String × AnchorAgg)) : Position :=
  let per_anchor := pa0 :: rest
  let dists : List (String × ℝ) :=
    per_anchor.map (fun kv => (kv.1, rssi_to_distance kv.2.best_rssi p.tx_power p.path_loss_n))
  let nearest := argmaxRssi pa0 rest
  let nearest_dist : ℝ := (alookup nearest.1 dists).getD 0
  let na := per_anchor.length
  let q := qScore p.top_k per_anchor
  if 2 ≤ na then
    let top := (sortDescRssi per_anchor).take p.top_k
    let acc := wsum p anchors dists top
    if 0 < acc.2.2 then
      { uid := uid, x := acc.1 / acc.2.2, y := acc.2.1 / acc.2.2, z := 0,
        method := "proximity", q_score := q, zone := none,
        nearest_anchor_id := nearest.1, dist_m := nearest_dist,
        num_anchors := na, dists := dists }
    else
      let c := (alookup nearest.1 anchors).getD (0, 0, 0)
      { uid := uid, x := (c.1 : ℝ), y := (c.2.1 : ℝ), z := 0,
        method := "fallback_nearest", q_score := q, zone := none,
        nearest_anchor_id := nearest.1, dist_m := nearest_dist,
        num_anchors := na, dists := dists }
  else
    let c := (alookup nearest.1 anchors).getD (0, 0, 0)
    { uid := uid, x := (c.1 : ℝ), y := (c.2.1 : ℝ), z := 0,
      method := "single_anchor", q_score := q, zone := none,
      nearest_anchor_id := nearest.1, dist_m := nearest_dist,
      num_anchors := na, dists := dists }

/-- One uid's processing inside a tick (window alignment, aggregation, and
position construction; the throttle is handled by the caller): `none` when the
uid yields no position (no records, or no known anchor in the window). -/
noncomputable def computeUid (p : LocParams) (anchors : AnchorMap) (uid : String)
    (records : List ScanRec) : Option Position :=
  match records with
  | [] => none
  | r0 :: rs =>
    let uid_latest := rs.foldl (fun m r => max m r.ts) r0.ts
    let filtered := (r0 :: rs).filter (fun r => uid_latest - p.window_seconds ≤ r.ts)
    match aggregate anchors filtered with
    | [] => none
    | pa0 :: parest => some (mkPosition p anchors uid pa0 parest)

/-! ## Locator: per-uid write throttle and the tick loop -/

/-- The locator's mutable state: `_last_written_ts_monotonic` (defaulting to
0.0 for unseen uids), the positions emitted so far (tagged with the monotonic
instant of their tick), and the throttle skips so far (tagged the same way). -/
structure LocState where
  thr : String → ℚ
  emits : List (ℚ × Position)
  skipped : List (ℚ × String)

/-- The locator's initial state: an empty throttle map, nothing emitted. -/
def locInit : LocState :=
  { thr := fun _ => 0, emits := [], skipped := [] }

/-- Processing of one `(uid, records)` entry of `by_uid` at monotonic instant
`now`: `should_throttle` first (skip if the uid's entry is less than
`T = WRITE_THROTTLE_S` old, otherwise record `now` in the map and continue),
then the window/aggregation/insert pipeline, which may or may not emit. -/
noncomputable def stepUid (p : LocParams) (anchors : AnchorMap) (T : ℚ) (now : ℚ)
    (s : LocState) (e : String × List ScanRec) : LocState :=
  if now - s.thr e.1 < T then
    { s with skipped := s.skipped ++ [(now, e.1)] }
  else
    let thr2 := fun u => if u = e.1 then now else s.thr u
    match computeUid p anchors e.1 e.2 with
    | none => { thr := thr2, emits := s.emits, skipped := s.skipped }
    | some pos => { thr := thr2, emits := s.emits ++ [(now, pos)], skipped := s.skipped }

/-- One tick of the locator loop: the grouped scans of this tick, processed
uid by uid at the tick's monotonic instant. -/
structure Tick where
  now : ℚ
  byUid : List (String × List ScanRec)

/-- Process one tick. -/
noncomputable def processTick (p : LocParams) (anchors : AnchorMap) (T : ℚ)
    (s : LocState) (tk : Tick) : LocState :=
  tk.byUid.foldl (stepUid p anchors T tk.now) s

/-- Run the locator over a list of ticks (one run of the process; the anchor
table is read once at start and cached, as in the source). -/
noncomputable def runLocator (p : LocParams) (anchors : AnchorMap) (T : ℚ)
    (s : LocState) (ticks : List Tick) : LocState :=
  ticks.foldl (processTick p anchors T) s

/-- The default locator parameters from `locator/main.py`:
`WINDOW_SECONDS=7`, `TX_POWER_DBM_AT_1M=-59`, `PATH_LOSS_EXPONENT=2.2`,
`WEIGHT_DIST_CLAMP_M=0.5`, `TOP_K=3`. -/
noncomputable def defaultParams : LocParams :=
  { window_seconds := 7, tx_power := -59, path_loss_n := 11/5,
    weight_clamp := 1/2, top_k := 3 }

/-! ## Formalized claim statements (for the claims the code refutes) -/

/-- The spacing relation between two emitted positions: if they are for the
same uid, their monotonic emit instants are at least `T` apart. -/
def SpacedRel (T : ℚ) (a b : ℚ × Position) : Prop :=
  a.2.uid = b.2.uid → T ≤ b.1 - a.1

/-- The throttle claim as stated: in a run, a uid is skipped exactly when a
position for that uid was emitted less than `T` earlier (here: every throttle
skip is preceded, at most `T` before it, by an actual emit for the same uid),
and any two emits of the same uid are at least `T` apart. -/
def throttleClaim (p : LocParams) (anchors : AnchorMap) (T : ℚ)
    (ticks : List Tick) : Prop :=
  (∀ s ∈ (runLocator p anchors T locInit ticks).skipped,
      ∃ e ∈ (runLocator p anchors T locInit ticks).emits,
        e.2.uid = s.2 ∧ e.1 ≤ s.1 ∧ s.1 - e.1 < T) ∧
  (∀ l1 l2 l3 e1 e2,
      (runLocator p anchors T locInit ticks).emits = l1 ++ e1 :: l2 ++ e2 :: l3 →
      SpacedRel T e1 e2)

/-- The batch-writer claim as stated: for each of the three buffers, a flush
whose known-ID reload succeeds never fails — any FK violation during the bulk
insert is handled by a row-by-row retry. -/
def flushRetryClaim : Prop :=
  (∀ cfg nmono nms a w tl fk kid batch,
      exOk (flushScans cfg nmono nms (Except.ok (a, w, tl)) fk kid batch) = true) ∧
  (∀ cfg nmono nms a w tl fk kid batch,
      exOk (flushStatus cfg nmono nms (Except.ok (a, w, tl)) fk kid batch) = true) ∧
  (∀ cfg nmono nms a w tl fk kid batch,
      exOk (flushEvents cfg nmono nms (Except.ok (a, w, tl)) fk kid batch) = true)

/-- The known-ID-cache claim as stated: a failing reload inside
`ensure_fresh` preserves the previous snapshot and is not propagated — the
call still returns the old cache successfully. -/
def ensureFreshBestEffortClaim : Prop :=
  ∀ refreshS kid now, ensureFresh refreshS kid now (Except.error ()) = Except.ok kid

/-- The broadcaster-snapshot claim as stated: the initial snapshot lists each
kind in table insertion order. -/
def snapshotInsertionOrderClaim : Prop :=
  ∀ a w, initialSnapshot a w = a.map anchorMsg ++ w.map wearableMsg

/-! ## Concrete instances used by counterexamples and witnesses -/

/-- A one-anchor table: anchor `A` at `(3, 4, 0)`. -/
def exAnchors1 : AnchorMap := [("A", (3, 4, 0))]

/-- One scan of uid `u` at anchor `A` with `rssi = -59` (the reference power). -/
def exScans1 : List ScanRec := [{ ts := 10, anchor_id := "A", uid := "u", rssi := -59 }]

/-- The position the estimator produces from `exScans1`. -/
noncomputable def ex1Pos : Position :=
  mkPosition defaultParams exAnchors1 "u" ("A", { best_rssi := -59, latest_ts := 10 }) []

/-- The two-anchor table of the end-to-end scenario: `A@(0,0)`, `B@(10,0)`. -/
def exAnchors2 : AnchorMap := [("A", (0, 0, 0)), ("B", (10, 0, 0))]

/-- The scenario scans: `(A, rssi=-50)` and `(B, rssi=-60)` for uid `u`. -/
def exScans2 : List ScanRec :=
  [{ ts := 10, anchor_id := "A", uid := "u", rssi := -50 },
   { ts := 10, anchor_id := "B", uid := "u", rssi := -60 }]

/-- The position the estimator produces from `exScans2`. -/
noncomputable def ex2Pos : Position :=
  mkPosition defaultParams exAnchors2 "u"
    ("A", { best_rssi := -50, latest_ts := 10 })
    [("B", { best_rssi := -60, latest_ts := 10 })]

/-- Two locator ticks one second apart: in the first, uid `u` is heard only by
the unknown anchor `X` (so the throttle stamp is taken but nothing is
emitted); in the second, `u` is heard by the known anchor `A`. -/
def exTicks : List Tick :=
  [{ now := 100, byUid := [("u", [{ ts := 100, anchor_id := "X", uid := "u", rssi := -50 }])] },
   { now := 101, byUid := [("u", [{ ts := 101, anchor_id := "A", uid := "u", rssi := -50 }])] }]

/-- Two locator ticks ten seconds apart, both hearing uid `u` at anchor `A`. -/
def exTicksSpaced : List Tick :=
  [{ now := 100, byUid := [("u", exScans1)] },
   { now := 110, byUid := [("u", exScans1)] }]

/-- A stale known-ID cache (last loaded at monotonic 0, both sets empty). -/
def exKid : KnownIds := { anchors := [], wearables := [], last_loaded_s := 0 }

/-- Ingestor config with fallback enabled, `TS_MIN_EPOCH_MS = 0`,
`IDS_REFRESH_S = 60`. -/
def exCfg : IngestCfg := { allowFallback := true, tsMinEpochMs := 0, idsRefreshS := 60 }

/-- A status heartbeat from anchor `A`. -/
def exStatusMsg : AnchorStatus :=
  { ts := some 5, anchor_id := "A", ip := none, fw := none, uptime_s := none,
    wifi_rssi := none, heap_free := none, heap_min := none, chip_temp_c := none,
    tx_power_dbm := none, ble_scan_active := none }

/-- A scan message from anchor `A` for wearable `W`. -/
def exScanMsg : ScanMessage :=
  { ts := some 5, anchor_id := "A", uid := "W", rssi := -50, adv_seq := none,
    battery := none, temp_c := none, tx_power_dbm := none, emergency := none }

/-- A known-ID cache that knows anchor `A` and wearable `W`. -/
def exKidAW : KnownIds := { anchors := ["A"], wearables := ["W"], last_loaded_s := 100 }

/-- Anchors table with ids out of alphabetical order: `b` inserted before `a`. -/
def exAnchorRowB : AnchorRow := { id := "b", name := none, x := 0, y := 0, z := 0, created_at := 1 }

/-- The anchor row inserted second, with the alphabetically smaller id. -/
def exAnchorRowA : AnchorRow := { id := "a", name := none, x := 5, y := 5, z := 0, created_at := 2 }

/-- The modeled distance of the stronger scenario anchor (`rssi = -50`, the
default power and path-loss parameters). -/
noncomputable def fEx50 : ℝ := rssi_to_distance (-50) (-59) (11/5)

/-- The modeled distance of the weaker scenario anchor (`rssi = -60`). -/
noncomputable def fEx60 : ℝ := rssi_to_distance (-60) (-59) (11/5)

/-- The inverse-square centroid weight of the stronger scenario anchor, after
the `WEIGHT_DIST_CLAMP_M = 0.5` clamp. -/
noncomputable def wEx50 : ℝ := 1 / (max fEx50 (1/2) * max fEx50 (1/2))

/-- The inverse-square centroid weight of the weaker scenario anchor. -/
noncomputable def wEx60 : ℝ := 1 / (max fEx60 (1/2) * max fEx60 (1/2))

/-- The invariant carried along a locator run: every emitted position's
monotonic instant is bounded by the throttle-map entry of its uid, and the
emitted list is pairwise `T`-spaced per uid. -/
def LocInv (T : ℚ) (s : LocState) : Prop :=
  (∀ e ∈ s.emits, e.1 ≤ s.thr e.2.uid) ∧ s.emits.Pairwise (SpacedRel T)
/-- Claim C6: decoder timestamp normalization. A missing `ts` with fallback
enabled becomes `now_ms` (and raises with fallback disabled); a `ts` below
`TS_MIN_EPOCH_MS` or above `now_ms + 365` days becomes `now_ms`; otherwise it
is used as given. Consequently (for a clock past `TS_MIN_EPOCH_MS`) every
surviving record satisfies `TS_MIN_EPOCH_MS ≤ ts_ms ≤ now_ms + 1 year`. -/
theorem c6_ts_normalization (fb : Bool) (tsMin now : Int) (ts : Option Int) :
    (ts = none → fb = true → coerce_ts_ms fb tsMin now ts = Except.ok now)
    ∧ (ts = none → fb = false → exOk (coerce_ts_ms fb tsMin now ts) = false)
    ∧ (∀ t, ts = some t → (t < tsMin ∨ now + yearMs < t) →
        coerce_ts_ms fb tsMin now ts = Except.ok now)
    ∧ (∀ t, ts = some t → tsMin ≤ t → t ≤ now + yearMs →
        coerce_ts_ms fb tsMin now ts = Except.ok t)
    ∧ (tsMin ≤ now → ∀ r, coerce_ts_ms fb tsMin now ts = Except.ok r →
        tsMin ≤ r ∧ r ≤ now + yearMs) := by
  refine ⟨?_, ?_, ?_, ?_, ?_⟩
  · rintro rfl rfl; simp [coerce_ts_ms]
  · rintro rfl rfl; simp [coerce_ts_ms, exOk]
  · rintro t rfl h; simp [coerce_ts_ms, if_pos h]
  · rintro t rfl h1 h2
    have : ¬ (t < tsMin ∨ now + yearMs < t) := by omega
    simp [coerce_ts_ms, if_neg this]
  · intro hmin r hr
    have hy : (0:Int) ≤ yearMs := by norm_num [yearMs]
    cases ts with
    | none =>
      by_cases hfb : fb = true
      · simp [coerce_ts_ms, hfb] at hr; omega
      · simp [coerce_ts_ms, hfb] at hr
    | some t =>
      by_cases h : t < tsMin ∨ now + yearMs < t
      · simp [coerce_ts_ms, if_pos h] at hr; omega
      · simp [coerce_ts_ms, if_neg h] at hr; omega

/-- Witness for C6 at a concrete input: fallback with `ts` missing. -/
theorem c6_ts_normalization_witness :
    coerce_ts_ms true 0 1000 none = Except.ok 1000 ∧
    (0:Int) ≤ 1000 ∧ (1000:Int) ≤ 1000 + yearMs := by
  refine ⟨(c6_ts_normalization true 0 1000 none).1 rfl rfl, ?_⟩
  exact (c6_ts_normalization true 0 1000 none).2.2.2.2 (by norm_num) 1000
    ((c6_ts_normalization true 0 1000 none).1 rfl rfl)

/-- Claim C7: every scan row passed to the insert has `anchor_id` in the
known-anchor set and `uid` in the known-wearable set at flush time; rows
failing either membership test are counted in `skipped_unknown` and never
appear among the rows the flush inserts. -/
theorem c7_scan_fk_gate (cfg : IngestCfg) (now_ms : Int) (kid : KnownIds)
    (batch : List ScanMessage) :
    (∀ row ∈ (buildValidScans cfg now_ms kid batch).1,
        kid.anchors.contains row.anchor_id = true ∧ kid.wearables.contains row.uid = true)
    ∧ (buildValidScans cfg now_ms kid batch).2
        = (batch.filter (fun m =>
            exOk (coerce_ts_ms cfg.allowFallback cfg.tsMinEpochMs now_ms m.ts)
              && !(kid.anchors.contains m.anchor_id && kid.wearables.contains m.uid))).length
    ∧ (∀ nmono loadRes fk kid2 ins sk,
        flushScans cfg nmono now_ms loadRes fk kid batch = Except.ok (kid2, ins, sk) →
        ∀ row ∈ ins, row ∈ (buildValidScans cfg now_ms kid2 batch).1) := by
  refine ⟨?_, ?_, ?_⟩
  · induction batch with
    | nil => intro row hr; simp [buildValidScans] at hr
    | cons m rest ih =>
      intro row hr
      simp only [buildValidScans] at hr
      cases hc : coerce_ts_ms cfg.allowFallback cfg.tsMinEpochMs now_ms m.ts with
      | error e =>
        rw [hc] at hr
        exact ih row hr
      | ok ts =>
        rw [hc] at hr
        dsimp only at hr
        by_cases hm : (kid.anchors.contains m.anchor_id && kid.wearables.contains m.uid) = true
        · rw [if_pos hm] at hr
          simp only [List.mem_cons] at hr
          rcases hr with rfl | hr
          · rw [Bool.and_eq_true] at hm
            exact ⟨hm.1, hm.2⟩
          · exact ih row hr
        · rw [if_neg hm] at hr
          exact ih row hr
  · induction batch with
    | nil => simp [buildValidScans]
    | cons m rest ih =>
      simp only [buildValidScans]
      cases hc : coerce_ts_ms cfg.allowFallback cfg.tsMinEpochMs now_ms m.ts with
      | error e =>
        simp [hc, exOk, List.filter_cons, ih]
      | ok ts =>
        by_cases hm : (kid.anchors.contains m.anchor_id && kid.wearables.contains m.uid) = true
        · have hmem : m.anchor_id ∈ kid.anchors ∧ m.uid ∈ kid.wearables := by
            simpa using hm
          simp [hc, exOk, List.filter_cons, ih, hmem.1, hmem.2]
        · by_cases hA : m.anchor_id ∈ kid.anchors
          · have hW : m.uid ∉ kid.wearables := by
              intro hw
              exact hm (by simp [hA, hw])
            simp [hc, exOk, List.filter_cons, ih, hA, hW]
          · simp [hc, exOk, List.filter_cons, ih, hA]
  · intro nmono loadRes fk kid2 ins sk h row hrow
    simp only [flushScans] at h
    split at h
    · simp only [Except.ok.injEq, Prod.mk.injEq] at h
      obtain ⟨-, h2, -⟩ := h
      rw [← h2] at hrow
      simp at hrow
    · split at h
      · exact absurd h (by simp)
      · rename_i kid2' heq
        split at h
        · simp only [Except.ok.injEq, Prod.mk.injEq] at h
          obtain ⟨hk, h2, -⟩ := h
          rw [← h2] at hrow
          simp at hrow
        · split at h
          · simp only [Except.ok.injEq, Prod.mk.injEq] at h
            obtain ⟨hk, h2, -⟩ := h
            subst hk
            rw [← h2] at hrow
            exact List.mem_of_mem_filter hrow
          · simp only [Except.ok.injEq, Prod.mk.injEq] at h
            obtain ⟨hk, h2, -⟩ := h
            subst hk
            rw [← h2] at hrow
            exact hrow

lemma ensureFresh_ok_ne_error (refreshS : ℚ) (kid : KnownIds) (now : ℚ)
    (a w : List String) (t : ℚ) (e : Unit) :
    ensureFresh refreshS kid now (Except.ok (a, w, t)) ≠ Except.error e := by
  unfold ensureFresh
  split <;> simp

lemma flushStatus_exEval :
    flushStatus exCfg 100 1000 (Except.ok (["A"], ["W"], 100)) (fun _ => true) exKid
      [exStatusMsg] = Except.error () := by
  norm_num [flushStatus, ensureFresh, buildValidStatus, coerce_ts_ms, exCfg, exKid,
    exStatusMsg, statusRowOf, yearMs]

/-- Counterexample to claim C2 as stated: a status flush whose bulk insert
hits an FK violation fails instead of retrying row-by-row. -/
theorem c2_counterexample : ¬ flushRetryClaim := by
  intro h
  have h2 := h.2.1 exCfg 100 1000 ["A"] ["W"] 100 (fun _ => true) exKid [exStatusMsg]
  rw [flushStatus_exEval] at h2
  simp [exOk] at h2

/-- Claim C2 (amended): the scans flush never fails once the known-ID reload
succeeds — on an FK violation it inserts exactly the rows that individually
pass; the statuses and events flushes refresh, filter and bulk-insert, but an
FK violation during their bulk insert propagates as an error. -/
theorem c2_flush_amended :
    (∀ cfg nmono nms a w tl fk kid batch,
        exOk (flushScans cfg nmono nms (Except.ok (a, w, tl)) fk kid batch) = true)
    ∧ (∀ cfg nmono nms loadRes fk kid batch kid2 ins sk,
        flushScans cfg nmono nms loadRes fk kid batch = Except.ok (kid2, ins, sk) →
        ins = (buildValidScans cfg nms kid2 batch).1.filter (fun r => !(fk r)))
    ∧ (∀ cfg nmono nms loadRes fk kid batch kid2,
        batch ≠ [] →
        ensureFresh cfg.idsRefreshS kid nmono loadRes = Except.ok kid2 →
        (((buildValidStatus cfg nms kid2 batch).1.any fk = true →
            flushStatus cfg nmono nms loadRes fk kid batch = Except.error ())
          ∧ ((buildValidStatus cfg nms kid2 batch).1.any fk = false →
            exOk (flushStatus cfg nmono nms loadRes fk kid batch) = true)))
    ∧ (∀ cfg nmono nms loadRes fk kid batch kid2,
        batch ≠ [] →
        ensureFresh cfg.idsRefreshS kid nmono loadRes = Except.ok kid2 →
        (((buildValidEvents cfg nms kid2 batch).1.any fk = true →
            flushEvents cfg nmono nms loadRes fk kid batch = Except.error ())
          ∧ ((buildValidEvents cfg nms kid2 batch).1.any fk = false →
            exOk (flushEvents cfg nmono nms loadRes fk kid batch) = true))) := by
  refine ⟨?_, ?_, ?_, ?_⟩
  · intro cfg nmono nms a w tl fk kid batch
    simp only [flushScans]
    split
    · rfl
    · split
      · rename_i e heq
        exact absurd heq (ensureFresh_ok_ne_error _ _ _ _ _ _ _)
      · split
        · rfl
        · split <;> rfl
  · intro cfg nmono nms loadRes fk kid batch kid2 ins sk h
    simp only [flushScans] at h
    split at h
    · rename_i hb
      simp only [Except.ok.injEq, Prod.mk.injEq] at h
      obtain ⟨hk, h2, -⟩ := h
      subst hk
      rw [← h2]
      have hbe : batch = [] := by simpa [List.isEmpty_iff] using hb
      subst hbe
      simp [buildValidScans]
    · split at h
      · exact absurd h (by simp)
      · rename_i kid2' heq
        split at h
        · rename_i hv
          simp only [Except.ok.injEq, Prod.mk.injEq] at h
          obtain ⟨hk, h2, -⟩ := h
          rw [← h2, ← hk]
          have hnil : (buildValidScans cfg nms kid2' batch).1 = [] := by
            simpa [List.isEmpty_iff] using hv
          rw [hnil]
          simp
        · split at h
          · simp only [Except.ok.injEq, Prod.mk.injEq] at h
            obtain ⟨hk, h2, -⟩ := h
            rw [← h2, ← hk]
          · rename_i hany
            simp only [Except.ok.injEq, Prod.mk.injEq] at h
            obtain ⟨hk, h2, -⟩ := h
            rw [← h2, ← hk]
            have hall : ∀ r ∈ (buildValidScans cfg nms kid2' batch).1, (!(fk r)) = true := by
              intro r hr
              have hf : fk r = false := by
                by_contra hc
                exact hany ((List.any_eq_true).mpr ⟨r, hr, by simpa using hc⟩)
              simp [hf]
            exact (List.filter_eq_self.mpr hall).symm
  · intro cfg nmono nms loadRes fk kid batch kid2 hb hef
    have hbne : ¬(batch.isEmpty = true) := by simpa [List.isEmpty_iff] using hb
    constructor
    · intro hany
      simp only [flushStatus]
      rw [if_neg hbne, hef]
      dsimp only
      have hne : ¬((buildValidStatus cfg nms kid2 batch).1.isEmpty = true) := by
        intro hv
        have : (buildValidStatus cfg nms kid2 batch).1 = [] := by
          simpa [List.isEmpty_iff] using hv
        rw [this] at hany
        simp at hany
      rw [if_neg hne, if_pos hany]
    · intro hany
      simp only [flushStatus]
      rw [if_neg hbne, hef]
      dsimp only
      by_cases hv : (buildValidStatus cfg nms kid2 batch).1.isEmpty = true
      · rw [if_pos hv]; rfl
      · rw [if_neg hv, if_neg (by simp [hany])]; rfl
  · intro cfg nmono nms loadRes fk kid batch kid2 hb hef
    have hbne : ¬(batch.isEmpty = true) := by simpa [List.isEmpty_iff] using hb
    constructor
    · intro hany
      simp only [flushEvents]
      rw [if_neg hbne, hef]
      dsimp only
      have hne : ¬((buildValidEvents cfg nms kid2 batch).1.isEmpty = true) := by
        intro hv
        have : (buildValidEvents cfg nms kid2 batch).1 = [] := by
          simpa [List.isEmpty_iff] using hv
        rw [this] at hany
        simp at hany
      rw [if_neg hne, if_pos hany]
    · intro hany
      simp only [flushEvents]
      rw [if_neg hbne, hef]
      dsimp only
      by_cases hv : (buildValidEvents cfg nms kid2 batch).1.isEmpty = true
      · rw [if_pos hv]; rfl
      · rw [if_neg hv, if_neg (by simp [hany])]; rfl

/-- Counterexample to claim C8 as stated: a failing reload inside
`ensure_fresh` does not return the previous snapshot successfully. -/
theorem c8_counterexample : ¬ ensureFreshBestEffortClaim := by
  intro h
  have := h 60 exKid 100
  norm_num [ensureFresh, exKid] at this
  exact absurd this (by simp)

/-- Claim C8 (amended): when due, a failing reload in `ensure_fresh` leaves
the previous snapshot unmodified but the failure propagates to the caller
(no handler, no warning) and aborts the flush; a reload that is not yet due
returns the cache unchanged, and a successful reload installs all three
fields. -/
theorem c8_ensure_fresh_amended (refreshS : ℚ) (kid : KnownIds) (now : ℚ)
    (loadRes : Except Unit (List String × List String × ℚ)) :
    (refreshS ≤ now - kid.last_loaded_s → loadRes = Except.error () →
        ensureFresh refreshS kid now loadRes = Except.error ())
    ∧ (¬ refreshS ≤ now - kid.last_loaded_s →
        ensureFresh refreshS kid now loadRes = Except.ok kid)
    ∧ (∀ a w t, refreshS ≤ now - kid.last_loaded_s → loadRes = Except.ok (a, w, t) →
        ensureFresh refreshS kid now loadRes
          = Except.ok { anchors := a, wearables := w, last_loaded_s := t })
    ∧ (∀ cfg nms fk (batch : List ScanMessage), batch ≠ [] →
        cfg.idsRefreshS ≤ now - kid.last_loaded_s →
        IngestCfg.idsRefreshS cfg = refreshS →
        flushScans cfg now nms (Except.error ()) fk kid batch = Except.error ()) := by
  refine ⟨?_, ?_, ?_, ?_⟩
  · intro hfresh hload
    subst hload
    simp only [ensureFresh]
    rw [if_pos hfresh]
  · intro hfresh
    simp only [ensureFresh]
    rw [if_neg hfresh]
  · intro a w t hfresh hload
    subst hload
    simp only [ensureFresh]
    rw [if_pos hfresh]
  · intro cfg nms fk batch hb hfresh hr
    have hbne : ¬(batch.isEmpty = true) := by simpa [List.isEmpty_iff] using hb
    simp only [flushScans]
    rw [if_neg hbne]
    have hok : ensureFresh cfg.idsRefreshS kid now (Except.error ())
        = Except.error () := by
      simp only [ensureFresh]
      rw [if_pos hfresh]
    rw [hok]

/-- Witness for C8 (amended) at a concrete stale cache. -/
theorem c8_ensure_fresh_amended_witness :
    ((60 : ℚ) ≤ 100 - exKid.last_loaded_s) ∧
    ensureFresh 60 exKid 100 (Except.error ()) = Except.error () := by
  refine ⟨by norm_num [exKid], ?_⟩
  exact (c8_ensure_fresh_amended 60 exKid 100 (Except.error ())).1
    (by norm_num [exKid]) rfl

/-- Witness for C7 at a concrete batch with a known anchor and wearable. -/
theorem c7_scan_fk_gate_witness :
    exKidAW.anchors.contains (scanRowOf 5 exScanMsg).anchor_id = true ∧
    exKidAW.wearables.contains (scanRowOf 5 exScanMsg).uid = true :=
  (c7_scan_fk_gate exCfg 1000 exKidAW [exScanMsg]).1 (scanRowOf 5 exScanMsg)
    (by decide)

/-- Witness for C2 (amended): an empty scans flush succeeds; a status flush
with a universally failing FK oracle errors. -/
theorem c2_flush_amended_witness :
    exOk (flushScans exCfg 100 1000 (Except.ok (["A"], ["W"], 100)) (fun _ => true)
        exKid []) = true
    ∧ flushStatus exCfg 100 1000 (Except.ok (["A"], ["W"], 100)) (fun _ => true)
        exKid [exStatusMsg] = Except.error () := by
  constructor
  · exact c2_flush_amended.1 exCfg 100 1000 ["A"] ["W"] 100 (fun _ => true) exKid []
  · refine (c2_flush_amended.2.2.1 exCfg 100 1000 (Except.ok (["A"], ["W"], 100))
      (fun _ => true) exKid [exStatusMsg]
      { anchors := ["A"], wearables := ["W"], last_loaded_s := 100 } (by simp) ?_).1 ?_
    · norm_num [ensureFresh, exCfg, exKid]
    · decide

lemma insertAsc_perm {α : Type _} (key : α → String) (x : α) (l : List α) :
    (insertAsc key x l).Perm (x :: l) := by
  induction l with
  | nil => simp [insertAsc]
  | cons y ys ih =>
    simp only [insertAsc]
    split
    · exact List.Perm.refl _
    · exact (ih.cons y).trans (List.Perm.swap x y ys)

lemma sortByKey_perm {α : Type _} (key : α → String) (l : List α) :
    (sortByKey key l).Perm l := by
  induction l with
  | nil => simp [sortByKey]
  | cons x xs ih =>
    exact (insertAsc_perm key x (sortByKey key xs)).trans (ih.cons x)

lemma pairwise_insertAsc {α : Type _} (key : α → String) (x : α) (l : List α)
    (h : l.Pairwise (fun a b => key a ≤ key b)) :
    (insertAsc key x l).Pairwise (fun a b => key a ≤ key b) := by
  induction l with
  | nil => simp [insertAsc]
  | cons y ys ih =>
    rw [List.pairwise_cons] at h
    obtain ⟨hy, hys⟩ := h
    simp only [insertAsc]
    split
    · rename_i hle
      refine List.Pairwise.cons ?_ (List.Pairwise.cons hy hys)
      intro b hb
      rcases List.mem_cons.mp hb with rfl | hb
      · exact hle
      · exact le_trans hle (hy b hb)
    · rename_i hgt
      refine List.Pairwise.cons ?_ (ih hys)
      intro b hb
      have hb2 := (insertAsc_perm key x ys).mem_iff.mp hb
      rcases List.mem_cons.mp hb2 with rfl | hb2
      · exact le_of_not_le hgt
      · exact hy b hb2

lemma sortByKey_pairwise {α : Type _} (key : α → String) (l : List α) :
    (sortByKey key l).Pairwise (fun a b => key a ≤ key b) := by
  induction l with
  | nil => simp [sortByKey]
  | cons x xs ih => exact pairwise_insertAsc key x (sortByKey key xs) ih

/-- Counterexample to claim C9 as stated: with the anchor ids inserted out
of alphabetical order, the snapshot is NOT in insertion order. -/
theorem c9_counterexample : ¬ snapshotInsertionOrderClaim := by
  intro h
  have h2 := h [exAnchorRowB, exAnchorRowA] []
  have hba : ¬ (exAnchorRowB.id ≤ exAnchorRowA.id) := by
    simp [exAnchorRowA, exAnchorRowB]
    decide
  simp only [initialSnapshot, sortByKey, List.foldr, insertAsc, if_neg hba,
    List.map_cons, List.map_nil, List.append_nil] at h2
  simp [anchorMsg, exAnchorRowA, exAnchorRowB] at h2

/-- Claim C9 (amended): the initial snapshot has one message per anchor
followed by one per wearable — all anchors before all wearables, total count
the sum of the table sizes — but each kind is sorted by its identifier
(`ORDER BY id` / `ORDER BY uid`), a permutation of the table, not insertion
order. -/
theorem c9_snapshot_amended (a : List AnchorRow) (w : List WearableRow) :
    (initialSnapshot a w).length = a.length + w.length
    ∧ initialSnapshot a w
        = (sortByKey (fun r => r.id) a).map anchorMsg
          ++ (sortByKey (fun r => r.uid) w).map wearableMsg
    ∧ (sortByKey (fun r => r.id) a).Perm a
    ∧ (sortByKey (fun r => r.uid) w).Perm w
    ∧ (sortByKey (fun r => r.id) a).Pairwise (fun r s => r.id ≤ s.id)
    ∧ (sortByKey (fun r => r.uid) w).Pairwise (fun r s => r.uid ≤ s.uid) := by
  refine ⟨?_, rfl, sortByKey_perm _ _, sortByKey_perm _ _,
    sortByKey_pairwise _ _, sortByKey_pairwise _ _⟩
  simp [initialSnapshot, (sortByKey_perm (fun r => r.id) a).length_eq,
    (sortByKey_perm (fun r => r.uid) w).length_eq]

/-- Witness for C9 (amended) at a concrete pair of tables. -/
theorem c9_snapshot_amended_witness :
    (initialSnapshot [exAnchorRowB, exAnchorRowA] []).length
      = [exAnchorRowB, exAnchorRowA].length + ([] : List WearableRow).length :=
  (c9_snapshot_amended [exAnchorRowB, exAnchorRowA] []).1

lemma foldl_preserve {α β : Type _} (P : β → Prop) (f : β → α → β)
    (hf : ∀ b a, P b → P (f b a)) :
    ∀ (l : List α) (b : β), P b → P (l.foldl f b) := by
  intro l
  induction l with
  | nil => intro b hb; exact hb
  | cons x xs ih => intro b hb; exact ih _ (hf b x hb)

lemma qScore_nonneg (top_k : ℕ) (l : List (String × AnchorAgg)) :
    0 ≤ qScore top_k l :=
  le_max_left 0 _

lemma qScore_le_one (top_k : ℕ) (l : List (String × AnchorAgg)) :
    qScore top_k l ≤ 1 :=
  max_le (by norm_num) (min_le_left 1 _)

lemma pickMax_le_left (acc y : String × AnchorAgg) :
    acc.2.best_rssi ≤ (pickMax acc y).2.best_rssi := by
  unfold pickMax
  split
  · rename_i h; exact le_of_lt h
  · exact le_refl _

lemma pickMax_le_right (acc y : String × AnchorAgg) :
    y.2.best_rssi ≤ (pickMax acc y).2.best_rssi := by
  unfold pickMax
  split
  · exact le_refl _
  · rename_i h; exact le_of_not_lt h

lemma foldl_pickMax_le (l : List (String × AnchorAgg)) :
    ∀ acc, acc.2.best_rssi ≤ (l.foldl pickMax acc).2.best_rssi := by
  induction l with
  | nil => intro acc; exact le_refl _
  | cons y ys ih =>
    intro acc
    exact le_trans (pickMax_le_left acc y) (ih (pickMax acc y))

lemma foldl_pickMax_mem_le (l : List (String × AnchorAgg)) :
    ∀ acc, ∀ y ∈ l, y.2.best_rssi ≤ (l.foldl pickMax acc).2.best_rssi := by
  induction l with
  | nil => intro acc y hy; simp at hy
  | cons z zs ih =>
    intro acc y hy
    rcases List.mem_cons.mp hy with rfl | hy
    · exact le_trans (pickMax_le_right acc y) (foldl_pickMax_le zs (pickMax acc y))
    · exact ih (pickMax acc z) y hy

lemma foldl_pickMax_mem (l : List (String × AnchorAgg)) :
    ∀ acc, l.foldl pickMax acc = acc ∨ l.foldl pickMax acc ∈ l := by
  induction l with
  | nil => intro acc; left; rfl
  | cons y ys ih =>
    intro acc
    rcases ih (pickMax acc y) with h | h
    · rw [List.foldl_cons, h]
      unfold pickMax
      split
      · right; exact List.mem_cons_self _ _
      · left; rfl
    · right; exact List.mem_cons_of_mem _ h

lemma argmaxRssi_mem (x : String × AnchorAgg) (xs : List (String × AnchorAgg)) :
    argmaxRssi x xs ∈ x :: xs := by
  rcases foldl_pickMax_mem xs x with h | h
  · rw [argmaxRssi, h]; exact List.mem_cons_self _ _
  · exact List.mem_cons_of_mem _ h

lemma argmaxRssi_le (x : String × AnchorAgg) (xs : List (String × AnchorAgg)) :
    ∀ y ∈ x :: xs, y.2.best_rssi ≤ (argmaxRssi x xs).2.best_rssi := by
  intro y hy
  rcases List.mem_cons.mp hy with rfl | hy
  · exact foldl_pickMax_le xs y
  · exact foldl_pickMax_mem_le xs x y hy

lemma alookup_isSome_of_key {β : Type _} (k : String) (l : List (String × β)) :
    (∃ kv ∈ l, kv.1 = k) → ∃ v, alookup k l = some v := by
  induction l with
  | nil => rintro ⟨kv, hkv, -⟩; simp at hkv
  | cons y ys ih =>
    rintro ⟨kv, hkv, hk⟩
    rcases List.mem_cons.mp hkv with rfl | hkv
    · exact ⟨kv.2, by simp [alookup, hk]⟩
    · by_cases hy : y.1 = k
      · exact ⟨y.2, by simp [alookup, hy]⟩
      · obtain ⟨v, hv⟩ := ih ⟨kv, hkv, hk⟩
        exact ⟨v, by simpa [alookup, hy] using hv⟩

lemma alookup_mem {β : Type _} {k : String} {v : β} :
    ∀ {l : List (String × β)}, alookup k l = some v → (k, v) ∈ l := by
  intro l
  induction l with
  | nil => intro h; simp [alookup] at h
  | cons y ys ih =>
    intro h
    rw [alookup] at h
    split at h
    · rename_i heq
      simp only [Option.some.injEq] at h
      subst heq h
      exact List.mem_cons_self _ _
    · exact List.mem_cons_of_mem _ (ih h)

lemma alookup_map_nodup (g : String × AnchorAgg → ℝ) :
    ∀ {l : List (String × AnchorAgg)} {kv : String × AnchorAgg},
      (l.map Prod.fst).Nodup → kv ∈ l →
      alookup kv.1 (l.map (fun x => (x.1, g x))) = some (g kv) := by
  intro l
  induction l with
  | nil => intro kv h hm; simp at hm
  | cons y ys ih =>
    intro kv h hm
    rw [List.map_cons, List.nodup_cons] at h
    obtain ⟨hny, hnd⟩ := h
    rcases List.mem_cons.mp hm with rfl | hm
    · simp [alookup]
    · rw [List.map_cons, alookup]
      split
    -- if y.1 = kv.1 then contradiction with hny
      · rename_i heq
        exfalso
        exact hny (heq ▸ List.mem_map_of_mem Prod.fst hm)
      · exact ih hnd hm

lemma updateAgg_keys (aid : String) (r t : ℚ) :
    ∀ (l : List (String × AnchorAgg)),
      (updateAgg aid r t l).map Prod.fst
        = if aid ∈ l.map Prod.fst then l.map Prod.fst else l.map Prod.fst ++ [aid] := by
  intro l
  induction l with
  | nil => simp [updateAgg]
  | cons y ys ih =>
    rw [updateAgg]
    split
    · rename_i heq
      subst heq
      simp
    · rename_i hne
      simp only [List.map_cons, ih]
      by_cases hmem : aid ∈ ys.map Prod.fst
      · rw [if_pos hmem, if_pos (List.mem_cons_of_mem _ hmem)]
      · rw [if_neg hmem, if_neg ?_]
        · simp
        · intro hc
          rcases List.mem_cons.mp hc with hc | hc
          · exact hne hc.symm
          · exact hmem hc

lemma updateAgg_nodup (aid : String) (r t : ℚ) (l : List (String × AnchorAgg))
    (h : (l.map Prod.fst).Nodup) : ((updateAgg aid r t l).map Prod.fst).Nodup := by
  rw [updateAgg_keys]
  split
  · exact h
  · rename_i hnm
    rw [List.nodup_append]
    exact ⟨h, List.nodup_singleton aid, by simpa [List.disjoint_right] using hnm⟩

lemma aggregate_nodup (anchors : AnchorMap) (recs : List ScanRec) :
    ((aggregate anchors recs).map Prod.fst).Nodup := by
  unfold aggregate
  refine foldl_preserve (fun acc => (acc.map Prod.fst).Nodup) (aggStep anchors)
    ?_ recs [] List.nodup_nil
  intro acc r hacc
  unfold aggStep
  split
  · exact updateAgg_nodup _ _ _ _ hacc
  · exact hacc

lemma aggregate_keys_known (anchors : AnchorMap) (recs : List ScanRec) :
    ∀ k ∈ (aggregate anchors recs).map Prod.fst, (alookup k anchors).isSome = true := by
  unfold aggregate
  refine foldl_preserve
    (fun acc => ∀ k ∈ acc.map Prod.fst, (alookup k anchors).isSome = true)
    (aggStep anchors) ?_ recs [] (by intro k hk; simp at hk)
  intro acc r hacc
  unfold aggStep
  split
  · rename_i hsome
    intro k hk
    rw [updateAgg_keys] at hk
    split at hk
    · exact hacc k hk
    · rcases List.mem_append.mp hk with hk | hk
      · exact hacc k hk
      · rw [List.mem_singleton.mp hk]
        exact hsome
  · exact hacc

lemma mkPosition_fields (p : LocParams) (anchors : AnchorMap) (uid : String)
    (pa0 : String × AnchorAgg) (rest : List (String × AnchorAgg)) :
    (mkPosition p anchors uid pa0 rest).uid = uid
    ∧ (mkPosition p anchors uid pa0 rest).q_score = qScore p.top_k (pa0 :: rest)
    ∧ (mkPosition p anchors uid pa0 rest).num_anchors = (pa0 :: rest).length
    ∧ (mkPosition p anchors uid pa0 rest).nearest_anchor_id = (argmaxRssi pa0 rest).1
    ∧ (mkPosition p anchors uid pa0 rest).dists
        = (pa0 :: rest).map (fun kv =>
            (kv.1, rssi_to_distance kv.2.best_rssi p.tx_power p.path_loss_n))
    ∧ (mkPosition p anchors uid pa0 rest).dist_m
        = (alookup (argmaxRssi pa0 rest).1
            ((pa0 :: rest).map (fun kv =>
              (kv.1, rssi_to_distance kv.2.best_rssi p.tx_power p.path_loss_n)))).getD 0
    ∧ (mkPosition p anchors uid pa0 rest).z = 0 := by
  simp only [mkPosition]
  split
  · split
    · exact ⟨rfl, rfl, rfl, rfl, rfl, rfl, rfl⟩
    · exact ⟨rfl, rfl, rfl, rfl, rfl, rfl, rfl⟩
  · exact ⟨rfl, rfl, rfl, rfl, rfl, rfl, rfl⟩

lemma computeUid_some {p : LocParams} {anchors : AnchorMap} {uid : String}
    {recs : List ScanRec} {pos : Position}
    (h : computeUid p anchors uid recs = some pos) :
    ∃ scans pa0 parest, aggregate anchors scans = pa0 :: parest
      ∧ pos = mkPosition p anchors uid pa0 parest := by
  cases recs with
  | nil => simp [computeUid] at h
  | cons r0 rs =>
    simp only [computeUid] at h
    cases hagg : aggregate anchors
        ((r0 :: rs).filter
          (fun r => rs.foldl (fun m r => max m r.ts) r0.ts - p.window_seconds ≤ r.ts)) with
    | nil => rw [hagg] at h; simp at h
    | cons pa0 parest =>
      rw [hagg] at h
      simp only [Option.some.injEq] at h
      exact ⟨_, pa0, parest, hagg, h.symm⟩

lemma computeUid_uid {p : LocParams} {anchors : AnchorMap} {uid : String}
    {recs : List ScanRec} {pos : Position}
    (h : computeUid p anchors uid recs = some pos) : pos.uid = uid := by
  obtain ⟨scans, pa0, parest, -, rfl⟩ := computeUid_some h
  exact (mkPosition_fields p anchors uid pa0 parest).1

lemma qScore_single (top_k : ℕ) (pa0 : String × AnchorAgg) :
    qScore top_k [pa0] = 2/5 := by
  norm_num [qScore]

lemma mkPosition_single_proj (p : LocParams) (anchors : AnchorMap) (uid : String)
    (pa0 : String × AnchorAgg) :
    (mkPosition p anchors uid pa0 []).method = "single_anchor"
    ∧ (mkPosition p anchors uid pa0 []).x
        = (((alookup pa0.1 anchors).getD (0, 0, 0)).1 : ℝ)
    ∧ (mkPosition p anchors uid pa0 []).y
        = (((alookup pa0.1 anchors).getD (0, 0, 0)).2.1 : ℝ) := by
  simp only [mkPosition]
  split
  · rename_i h2
    exfalso
    simp at h2
  · exact ⟨rfl, rfl, rfl⟩

-- C3 / C4
/-- Claim C3: every emitted Position row has `0 ≤ q_score ≤ 1`, a `dists`
mapping with exactly `num_anchors` entries (distinct keys), and
`dist_m = dists[nearest_anchor_id]`. -/
theorem c3_position_invariants (p : LocParams) (anchors : AnchorMap) (uid : String)
    (recs : List ScanRec) (pos : Position)
    (h : computeUid p anchors uid recs = some pos) :
    (0 ≤ pos.q_score ∧ pos.q_score ≤ 1)
    ∧ pos.dists.length = pos.num_anchors
    ∧ (pos.dists.map Prod.fst).Nodup
    ∧ alookup pos.nearest_anchor_id pos.dists = some pos.dist_m := by
  obtain ⟨scans, pa0, parest, hagg, rfl⟩ := computeUid_some h
  obtain ⟨-, hq, hnum, hnear, hdists, hdist, -⟩ := mkPosition_fields p anchors uid pa0 parest
  have hnd : ((pa0 :: parest).map Prod.fst).Nodup := by
    rw [← hagg]
    exact aggregate_nodup anchors scans
  refine ⟨⟨?_, ?_⟩, ?_, ?_, ?_⟩
  · rw [hq]; exact qScore_nonneg _ _
  · rw [hq]; exact qScore_le_one _ _
  · rw [hdists, hnum]; exact List.length_map _ _
  · rw [hdists]
    have hkeys : (((pa0 :: parest).map (fun kv =>
        (kv.1, rssi_to_distance kv.2.best_rssi p.tx_power p.path_loss_n))).map Prod.fst)
        = (pa0 :: parest).map Prod.fst := by
      simp [List.map_map]
    rw [hkeys]
    exact hnd
  · rw [hnear, hdists, hdist]
    have hl := alookup_map_nodup
      (fun kv => rssi_to_distance kv.2.best_rssi p.tx_power p.path_loss_n) hnd
      (argmaxRssi_mem pa0 parest)
    rw [hl]
    simp

/-- Claim C4: a Position with `num_anchors = 1` is placed at the nearest
anchor's `(x, y)`, has `method = single_anchor`, and `q_score = 0.4`. -/
theorem c4_single_anchor (p : LocParams) (anchors : AnchorMap) (uid : String)
    (recs : List ScanRec) (pos : Position)
    (h : computeUid p anchors uid recs = some pos) (h1 : pos.num_anchors = 1) :
    pos.method = "single_anchor"
    ∧ (∃ c, alookup pos.nearest_anchor_id anchors = some c
        ∧ pos.x = (c.1 : ℝ) ∧ pos.y = (c.2.1 : ℝ))
    ∧ pos.q_score = 2/5 := by
  obtain ⟨scans, pa0, parest, hagg, rfl⟩ := computeUid_some h
  have hnum := (mkPosition_fields p anchors uid pa0 parest).2.2.1
  rw [hnum] at h1
  have hrest : parest = [] := by
    cases parest with
    | nil => rfl
    | cons a l => simp at h1
  subst hrest
  obtain ⟨hm, hx, hy⟩ := mkPosition_single_proj p anchors uid pa0
  have hnear := (mkPosition_fields p anchors uid pa0 []).2.2.2.1
  have hqf := (mkPosition_fields p anchors uid pa0 []).2.1
  have hk : (alookup pa0.1 anchors).isSome = true := by
    refine aggregate_keys_known anchors scans pa0.1 ?_
    rw [hagg]
    exact List.mem_map_of_mem Prod.fst (List.mem_cons_self _ _)
  obtain ⟨c, hc⟩ := Option.isSome_iff_exists.mp hk
  refine ⟨hm, ⟨c, ?_, ?_, ?_⟩, ?_⟩
  · rw [hnear]
    exact hc
  · rw [hx, hc]
    simp
  · rw [hy, hc]
    simp
  · rw [hqf, qScore_single]

lemma computeUid_ex1 : computeUid defaultParams exAnchors1 "u" exScans1 = some ex1Pos := by
  norm_num [computeUid, aggregate, aggStep, updateAgg, alookup, exScans1, exAnchors1,
    ex1Pos, defaultParams, List.filter]

/-- Witness for C3 on the concrete single-anchor example. -/
theorem c3_position_invariants_witness :
    (0 ≤ ex1Pos.q_score ∧ ex1Pos.q_score ≤ 1)
    ∧ ex1Pos.dists.length = ex1Pos.num_anchors
    ∧ (ex1Pos.dists.map Prod.fst).Nodup
    ∧ alookup ex1Pos.nearest_anchor_id ex1Pos.dists = some ex1Pos.dist_m :=
  c3_position_invariants defaultParams exAnchors1 "u" exScans1 ex1Pos computeUid_ex1

/-- Witness for C4 on the concrete single-anchor example. -/
theorem c4_single_anchor_witness :
    ex1Pos.method = "single_anchor"
    ∧ (∃ c, alookup ex1Pos.nearest_anchor_id exAnchors1 = some c
        ∧ ex1Pos.x = (c.1 : ℝ) ∧ ex1Pos.y = (c.2.1 : ℝ))
    ∧ ex1Pos.q_score = 2/5 :=
  c4_single_anchor defaultParams exAnchors1 "u" exScans1 ex1Pos computeUid_ex1
    (by simpa [ex1Pos] using
      (mkPosition_fields defaultParams exAnchors1 "u"
        ("A", { best_rssi := -59, latest_ts := 10 }) []).2.2.1)

lemma rssi_to_distance_lt (tx n : ℝ) (hn : 0 < n) {r1 r2 : ℝ} (h : r1 < r2) :
    rssi_to_distance r2 tx n < rssi_to_distance r1 tx n := by
  unfold rssi_to_distance
  rw [Real.rpow_lt_rpow_left_iff (by norm_num : (1:ℝ) < 10)]
  have h10n : (0:ℝ) < 10 * n := by positivity
  gcongr

lemma rssi_to_distance_le (tx n : ℝ) (hn : 0 < n) {r1 r2 : ℝ} (h : r1 ≤ r2) :
    rssi_to_distance r2 tx n ≤ rssi_to_distance r1 tx n := by
  unfold rssi_to_distance
  rw [Real.rpow_le_rpow_left_iff (by norm_num : (1:ℝ) < 10)]
  have h10n : (0:ℝ) < 10 * n := by positivity
  gcongr

/-- Claim C10: `rssi_to_distance` is strictly decreasing in `rssi` for a
positive path-loss exponent, and consequently every emitted Position's
`dist_m` is the minimum value of its `dists` mapping (and is itself one of
the values). -/
theorem c10_dist_min :
    (∀ tx n r1 r2 : ℝ, 0 < n → r1 < r2 →
        rssi_to_distance r2 tx n < rssi_to_distance r1 tx n)
    ∧ (∀ (p : LocParams) (anchors : AnchorMap) (uid : String)
        (recs : List ScanRec) (pos : Position), 0 < p.path_loss_n →
        computeUid p anchors uid recs = some pos →
        (∃ kv ∈ pos.dists, kv.2 = pos.dist_m) ∧ ∀ kv ∈ pos.dists, pos.dist_m ≤ kv.2) := by
  constructor
  · intro tx n r1 r2 hn h12
    exact rssi_to_distance_lt tx n hn h12
  · intro p anchors uid recs pos hn h
    obtain ⟨scans, pa0, parest, hagg, rfl⟩ := computeUid_some h
    have hnd : ((pa0 :: parest).map Prod.fst).Nodup := by
      rw [← hagg]
      exact aggregate_nodup anchors scans
    obtain ⟨-, -, -, hnear, hdists, hdist, -⟩ := mkPosition_fields p anchors uid pa0 parest
    have hl := alookup_map_nodup
      (fun kv => rssi_to_distance kv.2.best_rssi p.tx_power p.path_loss_n) hnd
      (argmaxRssi_mem pa0 parest)
    have hdm : (mkPosition p anchors uid pa0 parest).dist_m
        = rssi_to_distance (argmaxRssi pa0 parest).2.best_rssi p.tx_power p.path_loss_n := by
      rw [hdist, hl]
      simp
    constructor
    · refine ⟨((argmaxRssi pa0 parest).1,
        rssi_to_distance (argmaxRssi pa0 parest).2.best_rssi p.tx_power p.path_loss_n),
        ?_, ?_⟩
      · rw [hdists]
        exact List.mem_map_of_mem _ (argmaxRssi_mem pa0 parest)
      · rw [hdm]
    · intro kv hkv
      rw [hdists] at hkv
      obtain ⟨kv0, hkv0, rfl⟩ := List.mem_map.mp hkv
      rw [hdm]
      have hle := argmaxRssi_le pa0 parest kv0 hkv0
      exact rssi_to_distance_le p.tx_power p.path_loss_n hn (by exact_mod_cast hle)

/-- Witness for C10: strict monotonicity at `-60 < -50` and the minimum
property on the concrete single-anchor example. -/
theorem c10_dist_min_witness :
    rssi_to_distance (-50) (-59) (11/5) < rssi_to_distance (-60) (-59) (11/5)
    ∧ ((∃ kv ∈ ex1Pos.dists, kv.2 = ex1Pos.dist_m)
        ∧ ∀ kv ∈ ex1Pos.dists, ex1Pos.dist_m ≤ kv.2) := by
  constructor
  · exact c10_dist_min.1 (-59) (11/5) (-60) (-50) (by norm_num) (by norm_num)
  · exact c10_dist_min.2 defaultParams exAnchors1 "u" exScans1 ex1Pos
      (by norm_num [defaultParams]) computeUid_ex1

lemma insertDescRssi_length (x : String × AnchorAgg) :
    ∀ l, (insertDescRssi x l).length = l.length + 1 := by
  intro l
  induction l with
  | nil => rfl
  | cons y ys ih =>
    rw [insertDescRssi]
    split
    · simp
    · simp [ih]

lemma sortDescRssi_length (l : List (String × AnchorAgg)) :
    (sortDescRssi l).length = l.length := by
  induction l with
  | nil => rfl
  | cons x xs ih =>
    show (insertDescRssi x (sortDescRssi xs)).length = xs.length + 1
    rw [insertDescRssi_length, ih]

lemma wStep_snd_lt (p : LocParams) (anchors : AnchorMap) (dists : List (String × ℝ))
    (hcl : 0 < p.weight_clamp) (acc : ℝ × ℝ × ℝ) (kv : String × AnchorAgg) :
    acc.2.2 < (wStep p anchors dists acc kv).2.2 := by
  simp only [wStep]
  have hd : 0 < max ((alookup kv.1 dists).getD 0) p.weight_clamp :=
    lt_of_lt_of_le hcl (le_max_right _ _)
  have hw : 0 < 1 / (max ((alookup kv.1 dists).getD 0) p.weight_clamp
      * max ((alookup kv.1 dists).getD 0) p.weight_clamp) :=
    by positivity
  linarith

lemma foldl_wStep_le (p : LocParams) (anchors : AnchorMap) (dists : List (String × ℝ))
    (hcl : 0 < p.weight_clamp) :
    ∀ (l : List (String × AnchorAgg)) (acc : ℝ × ℝ × ℝ),
      acc.2.2 ≤ (l.foldl (wStep p anchors dists) acc).2.2 := by
  intro l
  induction l with
  | nil => intro acc; exact le_refl _
  | cons kv rest ih =>
    intro acc
    exact le_trans (le_of_lt (wStep_snd_lt p anchors dists hcl acc kv)) (ih _)

lemma wsum_snd_pos (p : LocParams) (anchors : AnchorMap) (dists : List (String × ℝ))
    (hcl : 0 < p.weight_clamp) (top : List (String × AnchorAgg)) (ht : top ≠ []) :
    0 < (wsum p anchors dists top).2.2 := by
  cases top with
  | nil => exact absurd rfl ht
  | cons kv rest =>
    unfold wsum
    rw [List.foldl_cons]
    refine lt_of_lt_of_le ?_ (foldl_wStep_le p anchors dists hcl rest _)
    exact wStep_snd_lt p anchors dists hcl ((0 : ℝ), (0 : ℝ), (0 : ℝ)) kv

lemma mkPosition_proximity_proj (p : LocParams) (anchors : AnchorMap) (uid : String)
    (pa0 : String × AnchorAgg) (rest : List (String × AnchorAgg))
    (h2 : 2 ≤ (pa0 :: rest).length) (hcl : 0 < p.weight_clamp) (hk : p.top_k ≠ 0) :
    (mkPosition p anchors uid pa0 rest).method = "proximity"
    ∧ (mkPosition p anchors uid pa0 rest).x
        = (wsum p anchors
            ((pa0 :: rest).map (fun kv =>
              (kv.1, rssi_to_distance kv.2.best_rssi p.tx_power p.path_loss_n)))
            ((sortDescRssi (pa0 :: rest)).take p.top_k)).1
          / (wsum p anchors
            ((pa0 :: rest).map (fun kv =>
              (kv.1, rssi_to_distance kv.2.best_rssi p.tx_power p.path_loss_n)))
            ((sortDescRssi (pa0 :: rest)).take p.top_k)).2.2
    ∧ (mkPosition p anchors uid pa0 rest).y
        = (wsum p anchors
            ((pa0 :: rest).map (fun kv =>
              (kv.1, rssi_to_distance kv.2.best_rssi p.tx_power p.path_loss_n)))
            ((sortDescRssi (pa0 :: rest)).take p.top_k)).2.1
          / (wsum p anchors
            ((pa0 :: rest).map (fun kv =>
              (kv.1, rssi_to_distance kv.2.best_rssi p.tx_power p.path_loss_n)))
            ((sortDescRssi (pa0 :: rest)).take p.top_k)).2.2 := by
  have htop : (sortDescRssi (pa0 :: rest)).take p.top_k ≠ [] := by
    intro hc
    rcases List.take_eq_nil_iff.mp hc with hc | hc
    · exact hk hc
    · have := sortDescRssi_length (pa0 :: rest)
      rw [hc] at this
      simp at this
  have hpos := wsum_snd_pos p anchors
    ((pa0 :: rest).map (fun kv =>
      (kv.1, rssi_to_distance kv.2.best_rssi p.tx_power p.path_loss_n)))
    hcl ((sortDescRssi (pa0 :: rest)).take p.top_k) htop
  simp only [mkPosition]
  rw [if_pos h2, if_pos hpos]
  exact ⟨rfl, rfl, rfl⟩

lemma computeUid_ex2 : computeUid defaultParams exAnchors2 "u" exScans2 = some ex2Pos := by
  have hAB : ("A" : String) ≠ "B" := by decide
  have hBA : ("B" : String) ≠ "A" := by decide
  norm_num [computeUid, aggregate, aggStep, updateAgg, alookup, exScans2, exAnchors2,
    ex2Pos, defaultParams, List.filter, hAB, hBA]

lemma fEx50_lt_one : fEx50 < 1 := by
  unfold fEx50 rssi_to_distance
  apply Real.rpow_lt_one_of_one_lt_of_neg (by norm_num)
  norm_num

lemma one_le_fEx60 : (1:ℝ) ≤ fEx60 := by
  unfold fEx60 rssi_to_distance
  have h := (Real.rpow_le_rpow_left_iff (show (1:ℝ) < 10 by norm_num)).mpr
    (show (0:ℝ) ≤ ((-59) - (-60)) / (10 * (11/5)) by norm_num)
  rwa [Real.rpow_zero] at h

lemma ex2Pos_xy :
    ex2Pos.method = "proximity"
    ∧ ex2Pos.x = wEx60 * 10 / (wEx50 + wEx60)
    ∧ ex2Pos.y = 0 := by
  obtain ⟨hm, hx, hy⟩ := mkPosition_proximity_proj defaultParams exAnchors2 "u"
    ("A", { best_rssi := -50, latest_ts := 10 })
    [("B", { best_rssi := -60, latest_ts := 10 })]
    (by norm_num) (by norm_num [defaultParams]) (by norm_num [defaultParams])
  refine ⟨hm, ?_, ?_⟩
  · rw [show ex2Pos = mkPosition defaultParams exAnchors2 "u"
      ("A", { best_rssi := -50, latest_ts := 10 })
      [("B", { best_rssi := -60, latest_ts := 10 })] from rfl, hx]
    have hAB : ("A" : String) ≠ "B" := by decide
    have hBA : ("B" : String) ≠ "A" := by decide
    norm_num [wsum, wStep, alookup, sortDescRssi, insertDescRssi, exAnchors2,
      defaultParams, wEx50, wEx60, fEx50, fEx60, hAB, hBA]
  · rw [show ex2Pos = mkPosition defaultParams exAnchors2 "u"
      ("A", { best_rssi := -50, latest_ts := 10 })
      [("B", { best_rssi := -60, latest_ts := 10 })] from rfl, hy]
    have hAB : ("A" : String) ≠ "B" := by decide
    have hBA : ("B" : String) ≠ "A" := by decide
    norm_num [wsum, wStep, alookup, sortDescRssi, insertDescRssi, exAnchors2,
      defaultParams, wEx50, wEx60, fEx50, fEx60, hAB, hBA]

/-- Claim C5: the two-anchor scenario (`A@(0,0)` at `rssi=-50`,
`B@(10,0)` at `rssi=-60`, defaults) yields `method = proximity`,
`0 ≤ x ≤ 10`, `x < 5`, `y = 0`, `z = 0`, `0 < q_score ≤ 1`,
`num_anchors = 2`, `nearest_anchor_id = A`, and `dists` keyed `{A, B}`. -/
theorem c5_two_anchor_scenario :
    computeUid defaultParams exAnchors2 "u" exScans2 = some ex2Pos
    ∧ ex2Pos.method = "proximity"
    ∧ 0 ≤ ex2Pos.x ∧ ex2Pos.x ≤ 10 ∧ ex2Pos.x < 5
    ∧ ex2Pos.y = 0 ∧ ex2Pos.z = 0
    ∧ 0 < ex2Pos.q_score ∧ ex2Pos.q_score ≤ 1
    ∧ ex2Pos.num_anchors = 2
    ∧ ex2Pos.nearest_anchor_id = "A"
    ∧ ex2Pos.dists.map Prod.fst = ["A", "B"] := by
  obtain ⟨hm, hx, hy⟩ := ex2Pos_xy
  have hmaxA : (0:ℝ) < max fEx50 (1/2) := lt_of_lt_of_le (by norm_num) (le_max_right _ _)
  have hmaxB : (0:ℝ) < max fEx60 (1/2) := lt_of_lt_of_le (by norm_num) (le_max_right _ _)
  have hwA : 0 < wEx50 := by
    unfold wEx50
    exact one_div_pos.mpr (mul_pos hmaxA hmaxA)
  have hwB : 0 < wEx60 := by
    unfold wEx60
    exact one_div_pos.mpr (mul_pos hmaxB hmaxB)
  have hABmax : max fEx50 (1/2 : ℝ) < max fEx60 (1/2 : ℝ) := by
    have h2 : max fEx50 (1/2 : ℝ) < fEx60 :=
      max_lt (lt_of_lt_of_le fEx50_lt_one one_le_fEx60)
        (lt_of_lt_of_le (by norm_num) one_le_fEx60)
    exact lt_of_lt_of_le h2 (le_max_left _ _)
  have hwBA : wEx60 < wEx50 := by
    unfold wEx50 wEx60
    exact one_div_lt_one_div_of_lt (mul_pos hmaxA hmaxA)
      (mul_self_lt_mul_self (le_of_lt hmaxA) hABmax)
  have hden : (0:ℝ) < wEx50 + wEx60 := by linarith
  have hfields := mkPosition_fields defaultParams exAnchors2 "u"
    ("A", { best_rssi := -50, latest_ts := 10 })
    [("B", { best_rssi := -60, latest_ts := 10 })]
  have hqv : ex2Pos.q_score = 3/5 := by
    rw [show ex2Pos.q_score = qScore defaultParams.top_k
      [("A", { best_rssi := -50, latest_ts := 10 }),
       ("B", { best_rssi := -60, latest_ts := 10 })] from hfields.2.1]
    norm_num [qScore, foldMax, foldMin, defaultParams]
  refine ⟨computeUid_ex2, hm, ?_, ?_, ?_, hy, ?_, ?_, ?_, ?_, ?_, ?_⟩
  · rw [hx]
    exact div_nonneg (le_of_lt (mul_pos hwB (by norm_num))) (le_of_lt hden)
  · rw [hx, div_le_iff₀ hden]
    linarith
  · rw [hx, div_lt_iff₀ hden]
    linarith
  · exact hfields.2.2.2.2.2.2
  · rw [hqv]; norm_num
  · rw [hqv]; norm_num
  · rw [show ex2Pos.num_anchors = _ from hfields.2.2.1]
    rfl
  · rw [show ex2Pos.nearest_anchor_id = _ from hfields.2.2.2.1]
    norm_num [argmaxRssi, pickMax]
  · rw [show ex2Pos.dists = _ from hfields.2.2.2.2.1]
    rfl

lemma runLocator_exTicks :
    (runLocator defaultParams exAnchors1 5 locInit exTicks).emits = []
    ∧ (runLocator defaultParams exAnchors1 5 locInit exTicks).skipped = [(101, "u")] := by
  have hAX : ("A" : String) ≠ "X" := by decide
  norm_num [runLocator, processTick, stepUid, computeUid, aggregate, aggStep, updateAgg,
    alookup, locInit, exTicks, exAnchors1, defaultParams, List.filter, hAX]

/-- Counterexample to claim C1 as stated: a uid whose first tick had only
unknown-anchor scans is throttled one second later although no position was
ever emitted for it. -/
theorem c1_counterexample : ¬ throttleClaim defaultParams exAnchors1 5 exTicks := by
  intro h
  obtain ⟨h1, -⟩ := h
  obtain ⟨e, he, -⟩ := h1 (101, "u") (by rw [runLocator_exTicks.2]; simp)
  rw [runLocator_exTicks.1] at he
  simp at he

lemma stepUid_inv (p : LocParams) (anchors : AnchorMap) {T : ℚ} (hT : 0 < T)
    (now : ℚ) (s : LocState) (e : String × List ScanRec) (h : LocInv T s) :
    LocInv T (stepUid p anchors T now s e) := by
  obtain ⟨h1, h2⟩ := h
  simp only [stepUid]
  split
  · exact ⟨h1, h2⟩
  · rename_i hpass
    push_neg at hpass
    cases hcu : computeUid p anchors e.1 e.2 with
    | none =>
      refine ⟨?_, h2⟩
      intro e2 he2
      dsimp only
      by_cases hu : e2.2.uid = e.1
      · have hb := h1 e2 he2
        rw [hu] at hb
        simp only [hu, if_true, eq_self_iff_true]
        linarith
      · simp only [if_neg hu]
        exact h1 e2 he2
    | some pos =>
      have hpuid : pos.uid = e.1 := computeUid_uid hcu
      constructor
      · intro e2 he2
        dsimp only
        rcases List.mem_append.mp he2 with he2 | he2
        · by_cases hu : e2.2.uid = e.1
          · have hb := h1 e2 he2
            rw [hu] at hb
            simp only [hu, if_true, eq_self_iff_true]
            linarith
          · simp only [if_neg hu]
            exact h1 e2 he2
        · rw [List.mem_singleton.mp he2]
          dsimp only
          simp [hpuid]
      · rw [List.pairwise_append]
        refine ⟨h2, List.pairwise_singleton _ _, ?_⟩
        intro a ha b hb
        rw [List.mem_singleton.mp hb]
        intro huid
        dsimp only at huid ⊢
        rw [hpuid] at huid
        have hb2 := h1 a ha
        rw [huid] at hb2
        linarith

lemma runLocator_inv (p : LocParams) (anchors : AnchorMap) {T : ℚ} (hT : 0 < T)
    (ticks : List Tick) : LocInv T (runLocator p anchors T locInit ticks) := by
  unfold runLocator
  refine foldl_preserve (LocInv T) (processTick p anchors T) ?_ ticks locInit ?_
  · intro s tk hs
    unfold processTick
    refine foldl_preserve (LocInv T) (stepUid p anchors T tk.now) ?_ tk.byUid s hs
    intro s2 e2 hs2
    exact stepUid_inv p anchors hT tk.now s2 e2 hs2
  · exact ⟨by intro e he; simp [locInit] at he, List.Pairwise.nil⟩

/-- Claim C1 (amended): a uid is skipped exactly when its throttle-map
entry — recorded whenever the check passes, even if no position is then
emitted — is less than `WRITE_THROTTLE_S` old; and for `WRITE_THROTTLE_S > 0`
any two positions the run emits for the same uid are at least
`WRITE_THROTTLE_S` apart in monotonic time. -/
theorem c1_throttle_amended :
    (∀ (p : LocParams) (anchors : AnchorMap) (T now : ℚ) (s : LocState)
        (e : String × List ScanRec),
      (stepUid p anchors T now s e).skipped
        = s.skipped ++ (if now - s.thr e.1 < T then [(now, e.1)] else [])
      ∧ (stepUid p anchors T now s e).thr e.1
        = (if now - s.thr e.1 < T then s.thr e.1 else now))
    ∧ (∀ (p : LocParams) (anchors : AnchorMap) (T : ℚ), 0 < T →
        ∀ (ticks : List Tick) (l1 l2 l3 : List (ℚ × Position)) (e1 e2 : ℚ × Position),
        (runLocator p anchors T locInit ticks).emits = l1 ++ e1 :: l2 ++ e2 :: l3 →
        e1.2.uid = e2.2.uid → T ≤ e2.1 - e1.1) := by
  constructor
  · intro p anchors T now s e
    simp only [stepUid]
    split
    · exact ⟨rfl, rfl⟩
    · cases hcu : computeUid p anchors e.1 e.2 with
      | none => exact ⟨(List.append_nil _).symm, by simp⟩
      | some pos => exact ⟨(List.append_nil _).symm, by simp⟩
  · intro p anchors T hT ticks l1 l2 l3 e1 e2 hemit huid
    have hinv := (runLocator_inv p anchors hT ticks).2
    have hsub : ([e1] ++ [e2]).Sublist (l1 ++ e1 :: l2 ++ e2 :: l3) := by
      refine List.Sublist.append ?_ ?_
      · exact List.Sublist.trans (List.Sublist.cons₂ e1 (List.nil_sublist l2))
          (List.sublist_append_right l1 (e1 :: l2))
      · exact List.Sublist.cons₂ e2 (List.nil_sublist l3)
    have hp : List.Pairwise (SpacedRel T) [e1, e2] :=
      List.Pairwise.sublist hsub (hemit ▸ hinv)
    rw [List.pairwise_cons] at hp
    exact hp.1 e2 (List.mem_singleton_self _) huid

lemma runLocator_spaced :
    (runLocator defaultParams exAnchors1 5 locInit exTicksSpaced).emits
      = [((100:ℚ), ex1Pos), ((110:ℚ), ex1Pos)] := by
  norm_num [runLocator, processTick, stepUid, locInit, exTicksSpaced, computeUid_ex1]

/-- Witness for C1 (amended): a concrete run whose two emits for `u` are
ten seconds apart. -/
theorem c1_throttle_amended_witness :
    (0:ℚ) < 5 ∧ (5:ℚ) ≤ 110 - 100 := by
  refine ⟨by norm_num, ?_⟩
  exact c1_throttle_amended.2 defaultParams exAnchors1 5 (by norm_num) exTicksSpaced
    [] [] [] ((100:ℚ), ex1Pos) ((110:ℚ), ex1Pos) (by simpa using runLocator_spaced) rfl
